import Mathlib

/-!
Verification of the wash shell engine (`src/shell_base.rs`): the redirect
resolver (`preprocess_redirects`), the native process spawner (`spawn`),
the command dispatcher (`execute_command`) and the history store with bang
expansion (`history_expansion`).  Rust strings are modelled as lists of
characters, machine integers (`RawFd = i32`, exit statuses) as `Int`, the
filesystem as a finite map from paths to file kinds, and `HashMap<RawFd, _>`
as an association list with single-binding insert/remove.
-/

namespace Wash

/-- Characters of a Rust `String` / `&str`, modelled as a list of characters. -/
abbrev Str := List Char

/-- Convert a Lean string literal into the character-list model. -/
def str (s : String) : Str := s.data

/-- `EXIT_SUCCESS` from `shell_base.rs`. -/
def EXIT_SUCCESS : Int := 0

/-- `EXIT_FAILURE` from `shell_base.rs`. -/
def EXIT_FAILURE : Int := 1

/-- `EXIT_CRITICAL_FAILURE` from `shell_base.rs`. -/
def EXIT_CRITICAL_FAILURE : Int := 2

/-- `EXIT_CMD_NOT_FOUND` from `shell_base.rs` (declared there, never used by
`execute_command`). -/
def EXIT_CMD_NOT_FOUND : Int := 127

/-- What a path names on the filesystem.  A regular file carries the first
line that `BufReader::lines().next()` would yield as `Some(Ok(line))`;
`none` models a file whose first read does not produce a UTF-8 text line
(e.g. a WASM binary) or a directory-like read failure. -/
inductive FileKind where
  | dir : FileKind
  | file (firstLine : Option Str) : FileKind
  deriving DecidableEq, Repr

/-- The filesystem visible to the shell: a finite map path ↦ kind.
Absent paths do not exist (`fs::metadata` yields `NotFound`). -/
structure FS where
  entries : List (Str × FileKind)
  deriving DecidableEq, Repr

/-- Path lookup in the filesystem model. -/
def FS.lookup (fs : FS) (p : Str) : Option FileKind :=
  (fs.entries.find? (fun e => e.1 == p)).map (fun e => e.2)

/-- `path_exists` from `shell_base.rs`: `fs::metadata(path)` succeeds
exactly when the path exists (the model has no other I/O failures). -/
def path_exists (fs : FS) (p : Str) : Bool :=
  (fs.lookup p).isSome

/-- The `Redirect` enum (non-wasi variant).  Pipe endpoints are identified
by a number standing for the `PipeReader`/`PipeWriter` handle stored in the
Rust `Option` payload (always `Some` when `preprocess_redirects` runs). -/
inductive Redirect where
  | read (fd : Int) (path : Str)
  | write (fd : Int) (path : Str)
  | append (fd : Int) (path : Str)
  | readWrite (fd : Int) (path : Str)
  | pipeIn (pipe : Nat)
  | pipeOut (pipe : Nat)
  | duplicate (fdDest : Int) (fdSource : Int)
  | close (fd : Int)
  deriving DecidableEq, Repr

/-- The `OpenedFd` enum.  A freshly opened file is identified by the open
description it refers to (`id`); `File::try_clone` yields a handle with the
same `id`, while a separate `open` of the same path yields a new one. -/
inductive OpenedFd where
  | file (id : Nat) (writable : Bool)
  | pipeReader (pipe : Nat)
  | pipeWriter (pipe : Nat)
  | stdIn
  | stdOut
  | stdErr
  deriving DecidableEq, Repr

/-- The `HashMap<RawFd, OpenedFd>` descriptor table, as an association list
with at most one binding per descriptor. -/
abbrev Table := List (Int × OpenedFd)

/-- HashMap removal: drop the binding for `k` if present. -/
def tremove (t : Table) (k : Int) : Table :=
  t.filter (fun e => !(e.1 == k))

/-- HashMap insertion: overwrite any previous binding for `k`. -/
def tinsert (t : Table) (k : Int) (v : OpenedFd) : Table :=
  (k, v) :: tremove t k

/-- HashMap lookup. -/
def tlookup (t : Table) (k : Int) : Option OpenedFd :=
  (t.find? (fun e => e.1 == k)).map (fun e => e.2)

/-- The error kinds `preprocess_redirects` can produce: `NotFound` from a
failed read-open, `IsADirectory` from a write-like open of a directory, and
`EBADF` (`io::Error::from_raw_os_error(libc::EBADF)`) from a `Duplicate`
whose source descriptor is untracked. -/
inductive IOError where
  | notFound
  | isADirectory
  | badFileDescriptor
  deriving DecidableEq, Repr

/-- Resolver state: the descriptor table plus the next fresh open-description
identifier (instrumentation that names the files opened so far). -/
structure Resolution where
  table : Table
  next : Nat
  deriving DecidableEq, Repr

/-- One step of the second loop of `preprocess_redirects`:
  * `Read` opens the path read-only (`NotFound` when absent; a read-only
    open of an existing directory succeeds, as on Linux);
  * `Write`/`Append`/`ReadWrite` open with create, so only an existing
    directory fails (`EISDIR`);
  * `Duplicate` clones the tracked source entry (same open description)
    onto the destination, or fails with `EBADF` when the source is
    untracked;
  * `Close` removes the binding (removing an absent key is a no-op);
  * pipe entries are skipped (`continue`). -/
def processRedirect (fs : FS) (st : Resolution) : Redirect → Resolution × Except IOError Unit
  | .read fd p =>
    match fs.lookup p with
    | some _ => (⟨tinsert st.table fd (.file st.next false), st.next + 1⟩, .ok ())
    | none => (st, .error .notFound)
  | .write fd p =>
    match fs.lookup p with
    | some .dir => (st, .error .isADirectory)
    | _ => (⟨tinsert st.table fd (.file st.next true), st.next + 1⟩, .ok ())
  | .append fd p =>
    match fs.lookup p with
    | some .dir => (st, .error .isADirectory)
    | _ => (⟨tinsert st.table fd (.file st.next true), st.next + 1⟩, .ok ())
  | .readWrite fd p =>
    match fs.lookup p with
    | some .dir => (st, .error .isADirectory)
    | _ => (⟨tinsert st.table fd (.file st.next true), st.next + 1⟩, .ok ())
  | .duplicate fdDest fdSource =>
    match tlookup st.table fdSource with
    | some target => (⟨tinsert st.table fdDest target, st.next⟩, .ok ())
    | none => (st, .error .badFileDescriptor)
  | .close fd => (⟨tremove st.table fd, st.next⟩, .ok ())
  | .pipeIn _ => (st, .ok ())
  | .pipeOut _ => (st, .ok ())

/-- The second loop of `preprocess_redirects`: process entries in order,
returning the partial table together with the first error. -/
def go (fs : FS) : List Redirect → Resolution → Resolution × Except IOError Unit
  | [], st => (st, .ok ())
  | r :: rs, st =>
    match processRedirect fs st r with
    | (st1, .ok _) => go fs rs st1
    | (st1, .error e) => (st1, .error e)

/-- The first loop of `preprocess_redirects`: pipeline redirections are
applied before the rest, `PipeIn` onto slot 0 and `PipeOut` onto slot 1. -/
def pipePhase : List Redirect → Table → Table
  | [], t => t
  | .pipeIn p :: rs, t => pipePhase rs (tinsert t 0 (.pipeReader p))
  | .pipeOut p :: rs, t => pipePhase rs (tinsert t 1 (.pipeWriter p))
  | _ :: rs, t => pipePhase rs t

/-- The table `preprocess_redirects` starts from: the three standard
streams marked as inherited. -/
def stdSeed : Table :=
  [(0, .stdIn), (1, .stdOut), (2, .stdErr)]

/-- `preprocess_redirects` (non-wasi): seed with the standard streams,
apply pipeline redirections, then process the remaining entries in order;
returns the (partial) descriptor table and the first error if any. -/
def preprocess_redirects (fs : FS) (rs : List Redirect) : Resolution × Except IOError Unit :=
  go fs rs ⟨pipePhase rs stdSeed, 0⟩

/-- What a call of the native `spawn` returns, instrumented with whether the
parent blocked on `spawned.wait()`.  The Rust function returns only the
`i32` exit status (no process id). -/
structure SpawnTrace where
  exitStatus : Int
  waited : Bool
  deriving DecidableEq, Repr

/-- Every redirect handed to the native `spawn` must be a `Duplicate`
(the function panics on any other subtype). -/
def allDuplicates (redirects : List Redirect) : Bool :=
  redirects.all (fun r =>
    match r with
    | .duplicate _ _ => true
    | _ => false)

/-- The native `spawn` from `shell_base.rs`.  `childExit` is the exit code
the spawned child eventually reports (the `wait` oracle).  A non-`Duplicate`
redirect panics (`none`).  In the foreground case the parent waits for the
child and returns its exit code; in the background case it returns
`EXIT_SUCCESS` immediately without waiting. -/
def spawn (childExit : Int) (_path : Str) (_args : List Str) (_env : List (Str × Str))
    (background : Bool) (redirects : List Redirect) : Option SpawnTrace :=
  if allDuplicates redirects then
    if background then some ⟨EXIT_SUCCESS, false⟩
    else some ⟨childExit, true⟩
  else none

/-- The `Shell` state from `shell_base.rs`.  `history_file : Option<File>`
is modelled by an open flag plus the log of lines written to the backing
file during the session. -/
structure Shell where
  pwd : Str
  vars : List (Str × Str)
  args : List Str
  lastExitStatus : Int
  history : List Str
  historyFileOpen : Bool
  historyFileWrites : List Str
  shouldEcho : Bool
  cursorPosition : Nat
  insertMode : Bool
  deriving DecidableEq, Repr

/-- The history append step at the end of `history_expansion` (lines
752–759): push `processed` to the in-memory log and write it to the history
file unless it equals the immediately preceding entry. -/
def historyAppendLine (sh : Shell) (processed : Str) : Shell :=
  if sh.history.getLast? = some processed then sh
  else
    { sh with
      history := sh.history ++ [processed],
      historyFileWrites :=
        if sh.historyFileOpen then sh.historyFileWrites ++ [processed]
        else sh.historyFileWrites }

/-- Greedily take the leading decimal digits (`\d+`). -/
def takeDigits : Str → Str × Str
  | [] => ([], [])
  | c :: cs =>
    if c.isDigit then
      let (d, r) := takeDigits cs
      (c :: d, r)
    else ([], c :: cs)

/-- Word characters of the regex class `\w`.  The Rust regex crate's `\w`
is the Unicode word property; this model is exact for every code point
below 0x100 — the whole range the byte-oriented line editor can produce
(`input.insert(pos, c1[0] as char)` maps each byte to the Latin-1 code
point) — where the word characters are the ASCII alphanumerics, the
underscore, the three Latin-1 letters 0xAA, 0xB5 and 0xBA, and the
letters 0xC0–0xFF other than the two operators 0xD7 and 0xF7.  Code
points at 0x100 and above (reachable only through a pre-existing history
file) are outside the model. -/
def isWordChar (c : Char) : Bool :=
  c.isAlphanum || c == '_'
    || c.toNat == 0xAA || c.toNat == 0xB5 || c.toNat == 0xBA
    || (decide (0xC0 ≤ c.toNat) && decide (c.toNat ≤ 0xFF)
        && !(c.toNat == 0xD7) && !(c.toNat == 0xF7))

/-- Greedily take the leading word characters (`\w+`). -/
def takeWord : Str → Str × Str
  | [] => ([], [])
  | c :: cs =>
    if isWordChar c then
      let (w, r) := takeWord cs
      (c :: w, r)
    else ([], c :: cs)

/-- Match `!(-?\d+)` at the head of the string, returning the capture group
and the rest. -/
def matchBangNum : Str → Option (Str × Str)
  | '!' :: t =>
    match t with
    | '-' :: u =>
      match takeDigits u with
      | ([], _) => none
      | (d, r) => some ('-' :: d, r)
    | _ =>
      match takeDigits t with
      | ([], _) => none
      | (d, r) => some (d, r)
  | _ => none

/-- Match `!(\w+)` at the head of the string, returning the capture group
and the rest. -/
def matchBangWord : Str → Option (Str × Str)
  | '!' :: t =>
    match takeWord t with
    | ([], _) => none
    | (w, r) => some (w, r)
  | _ => none

/-- `captures_iter` for a regex of the shape `(?:^|[^\[])!(...)`: scan left
to right, at offset 0 first try the `^` alternative, otherwise consume one
character other than `[` before the bang; matches are non-overlapping and
each yields `(full match, capture group)`.  The fuel argument bounds the
number of scanning steps (each step consumes at least one character). -/
def scanAux (matchTok : Str → Option (Str × Str)) : Nat → Bool → Str → List (Str × Str)
  | 0, _, _ => []
  | _ + 1, _, [] => []
  | fuel + 1, atStart, c :: rest =>
    match (if atStart then matchTok (c :: rest) else none) with
    | some (g, r) => ('!' :: g, g) :: scanAux matchTok fuel false r
    | none =>
      if c == '[' then scanAux matchTok fuel false rest
      else
        match matchTok rest with
        | some (g, r) => (c :: '!' :: g, g) :: scanAux matchTok fuel false r
        | none => scanAux matchTok fuel false rest

/-- All captures of `NUMBER_RE` = `(?:^|[^\[])!(-?\d+)` in order. -/
def numCaptures (s : Str) : List (Str × Str) :=
  scanAux matchBangNum (s.length + 1) true s

/-- All captures of `STRING_RE` = `(?:^|[^\[])!(\w+)` in order. -/
def strCaptures (s : Str) : List (Str × Str) :=
  scanAux matchBangWord (s.length + 1) true s

/-- Helper for `replaceAll`, with fuel bounding the scanning steps. -/
def replaceAllAux (pat rep : Str) : Nat → Str → Str
  | 0, s => s
  | _ + 1, [] => []
  | fuel + 1, c :: rest =>
    if pat.isPrefixOf (c :: rest) then
      rep ++ replaceAllAux pat rep fuel ((c :: rest).drop pat.length)
    else c :: replaceAllAux pat rep fuel rest

/-- Rust `str::replace`: replace every non-overlapping occurrence of `pat`,
left to right.  All patterns passed by `history_expansion` contain a bang,
so the empty-pattern case never arises and is mapped to the identity. -/
def replaceAll (s pat rep : Str) : Str :=
  if pat.isEmpty then s else replaceAllAux pat rep (s.length + 1) s

/-- Decimal value of a digit string. -/
def digitsToNat : Str → Nat → Nat
  | [], acc => acc
  | c :: cs, acc => digitsToNat cs (acc * 10 + (c.toNat - '0'.toNat))

/-- `group_match.parse::<i32>()` on a `-?\d+` capture (values small enough
not to overflow `i32`; an overflowing parse panics in the source and is
outside this model). -/
def parseIntGroup : Str → Int
  | '-' :: ds => -(digitsToNat ds 0 : Int)
  | ds => (digitsToNat ds 0 : Int)

/-- The `NUMBER_RE` loop of `history_expansion`: for each capture compute
the 1-based (or from-the-end, for negatives) history index and substitute
the entry, stopping with the full match token when the entry is missing. -/
def numberLoop (history : List Str) : List (Str × Str) → Str → Except Str Str
  | [], processed => .ok processed
  | (fullMatch, groupMatch) :: rest, processed =>
    let n := parseIntGroup groupMatch
    let idx : Int := if n < 0 then (history.length : Int) + n else n - 1
    match (if idx < 0 then none else history.get? idx.toNat) with
    | some cmd => numberLoop history rest (replaceAll processed fullMatch cmd)
    | none => .error fullMatch

/-- The `STRING_RE` loop of `history_expansion`: for each capture find the
most recent history entry starting with the capture group and substitute
it, stopping with the full match token when there is none. -/
def stringLoop (history : List Str) : List (Str × Str) → Str → Except Str Str
  | [], processed => .ok processed
  | (fullMatch, groupMatch) :: rest, processed =>
    match history.reverse.find? (fun entry => groupMatch.isPrefixOf entry) with
    | some cmd => stringLoop history rest (replaceAll processed fullMatch cmd)
    | none => .error fullMatch

/-- The opening step of `history_expansion`: when the history is non-empty,
replace every occurrence of `!!` by the most recent entry; an empty history
leaves the input untouched. -/
def bangBangPass (history : List Str) (input : Str) : Str :=
  match history.getLast? with
  | some lastCommand => replaceAll input (str "!!") lastCommand
  | none => input

/-- The `HistoryExpansion` enum. -/
inductive HistoryExpansion where
  | expanded (s : Str)
  | eventNotFound (s : Str)
  | unchanged
  deriving DecidableEq, Repr

/-- `Shell::history_expansion`: replace `!!` by the last entry (skipped when
the history is empty), run the `NUMBER_RE` loop over the captures of the
original input, then the `STRING_RE` loop over the captures of the text
produced so far; on success append the processed line to history (no
consecutive duplicates) and report whether the input changed. -/
def history_expansion (sh : Shell) (input : Str) : Shell × HistoryExpansion :=
  match numberLoop sh.history (numCaptures input) (bangBangPass sh.history input) with
  | .error tok => (sh, .eventNotFound tok)
  | .ok afterNumbers =>
    match stringLoop sh.history (strCaptures afterNumbers) afterNumbers with
    | .error tok => (sh, .eventNotFound tok)
    | .ok afterStrings =>
      let pushed := historyAppendLine sh afterStrings
      if input == afterStrings then (pushed, .unchanged)
      else (pushed, .expanded afterStrings)

/-- What the line loop of `run_interpreter` does with one non-empty input
line after expansion: re-offer the expanded text, print the event-not-found
message, or hand the unchanged input to `handle_input`. -/
inductive LoopAction where
  | reoffer (s : Str)
  | printEventNotFound (s : Str)
  | executeInput (s : Str)
  deriving DecidableEq, Repr

/-- One iteration of the `run_interpreter` line loop, after a non-empty
line has been read. -/
def runLoopStep (sh : Shell) (input : Str) : Shell × LoopAction :=
  match history_expansion sh input with
  | (sh1, .expanded e) => (sh1, .reoffer e)
  | (sh1, .eventNotFound tok) => (sh1, .printEventNotFound tok)
  | (sh1, .unchanged) => (sh1, .executeInput input)

/-- The builtin command names, in the order of the `match command` arms of
`execute_command`. -/
def builtinNames : List Str :=
  [str "clear", str "exit", str "pwd", str "cd", str "history", str "unset",
   str "declare", str "export", str "source", str "write", str "imgcat",
   str "unzip", str "sleep", str "hexdump", str "purge", str "shift"]

/-- `PathBuf::join` for the joins performed by `execute_command` (the
right-hand side is always a relative path there). -/
def pathJoin (dir : Str) (rel : Str) : Str :=
  if dir.isEmpty then rel
  else if dir.getLast? = some '/' then dir ++ rel
  else dir ++ '/' :: rel

/-- Rust `str::split(':')`: the empty string yields one empty piece. -/
def splitOnColon : Str → List Str
  | [] => [[]]
  | c :: rest =>
    if c == ':' then [] :: splitOnColon rest
    else
      match splitOnColon rest with
      | [] => [[c]]
      | d :: ds => (c :: d) :: ds

/-- The executable-resolution step of `execute_command`: an absolute name is
used as is, a name starting with `.` is joined to the working directory, and
any other name is searched for in each `PATH` directory in order, first
match wins; each failure produces the error message the source prints. -/
def resolveExternal (fs : FS) (pwd : Str) (pathVar : Str) (command : Str) : Except Str Str :=
  if command.head? = some '/' then
    if path_exists fs command then .ok command
    else .error (command ++ str ": no such file or directory")
  else if command.head? = some '.' then
    let fullPath := pathJoin pwd command
    if path_exists fs fullPath then .ok fullPath
    else .error (fullPath ++ str ": no such file or directory")
  else
    match (splitOnColon pathVar).find? (fun binDir => path_exists fs (pathJoin binDir command)) with
    | some binDir => .ok (pathJoin binDir command)
    | none => .error (command ++ str ": command not found")

/-- Modelled from the spec: `OutputDevice::new` (its source,
`output_device.rs`, is not among the given files).  The spec describes the
output boundary as a one-directional notification of which standard slots
are redirected, with no failure mode of its own, so construction always
succeeds here. -/
def outputDeviceNew (_t : Table) : Except Str Unit := .ok ()

/-- The abstract OS descriptor (`as_raw_fd`) behind a resolved table entry,
used only as the payload of the rebuilt `Duplicate` list; the modelled
`spawn` never inspects it. -/
def rawFdOf : OpenedFd → Int
  | .stdIn => 0
  | .stdOut => 1
  | .stdErr => 2
  | .file id _ => 3 + id
  | .pipeReader p => 3 + p
  | .pipeWriter p => 3 + p

/-- The redirect list `execute_command` rebuilds from the resolved table to
hand to `spawn`: one `Duplicate` per tracked descriptor. -/
def rebuildRedirects (t : Table) : List Redirect :=
  t.map (fun e => .duplicate e.1 (rawFdOf e.2))

/-- How one `execute_command` call ends.  `builtinHandled` marks the builtin
arms, whose bodies are collaborator logic outside this model; `panicked`
marks the `unwrap`/`panic!` paths inside `spawn`; `done sh status spawned`
carries the updated shell state, the returned exit status, and whether
`spawn` was invoked. -/
inductive ExecResult where
  | builtinHandled (name : Str)
  | panicked
  | done (sh : Shell) (status : Int) (spawned : Bool)
  deriving DecidableEq, Repr

/-- `line.strip_prefix("#!")`. -/
def stripShebang (line : Str) : Option Str :=
  if (str "#!").isPrefixOf line then some (line.drop 2) else none

/-- Rust `str::trim`. -/
def trimStr (s : Str) : Str :=
  ((s.dropWhile Char.isWhitespace).reverse.dropWhile Char.isWhitespace).reverse

/-- `Shell::execute_command` (non-wasi), with the builtin bodies abstracted
and the child's eventual exit code supplied by the `childExit` oracle.
Faithful control flow: resolve the redirect list first and return
`EXIT_FAILURE` without touching the shell state or spawning on a resolver
error (the early `return` at lines 940–944); otherwise dispatch a builtin
by name; otherwise resolve the executable, returning `EXIT_FAILURE` (and
recording it, via the fall-through at lines 1430–1435) when resolution
fails; otherwise spawn the script interpreter or the binary itself with the
rebuilt `Duplicate` list and record the spawn status. -/
def execute_command (fs : FS) (childExit : Int) (pathVar shellVar : Str) (sh : Shell)
    (command : Str) (args : List Str) (env : List (Str × Str)) (background : Bool)
    (redirects : List Redirect) : ExecResult :=
  let pp := preprocess_redirects fs redirects
  match outputDeviceNew pp.1.table with
  | .error _ => .done sh EXIT_FAILURE false
  | .ok _ =>
    match pp.2 with
    | .error _ => .done sh EXIT_FAILURE false
    | .ok _ =>
      if builtinNames.contains command then .builtinHandled command
      else
        match resolveExternal fs sh.pwd pathVar command with
        | .error _ => .done { sh with lastExitStatus := EXIT_FAILURE } EXIT_FAILURE false
        | .ok fullPath =>
          let childRedirects := rebuildRedirects pp.1.table
          match fs.lookup fullPath with
          | some (.file (some firstLine)) =>
            let binaryPath :=
              match stripShebang firstLine with
              | some p => trimStr p
              | none => shellVar
            match spawn childExit binaryPath (fullPath :: args) env background childRedirects with
            | some tr => .done { sh with lastExitStatus := tr.exitStatus } tr.exitStatus true
            | none => .panicked
          | _ =>
            match spawn childExit fullPath args env background childRedirects with
            | some tr => .done { sh with lastExitStatus := tr.exitStatus } tr.exitStatus true
            | none => .panicked

/-- `r` (re-)establishes a binding for `fd` when processed: it is a file
redirect onto `fd` or a `Duplicate` whose destination is `fd`. -/
def touchesFd (fd : Int) : Redirect → Bool
  | .read f _ => f == fd
  | .write f _ => f == fd
  | .append f _ => f == fd
  | .readWrite f _ => f == fd
  | .duplicate fdDest _ => fdDest == fd
  | .pipeIn _ => false
  | .pipeOut _ => false
  | .close _ => false

/-- A resolved entry that came from an opened file or a pipe endpoint (as
opposed to an inherited standard stream). -/
def isFileOrPipe : OpenedFd → Bool
  | .file _ _ => true
  | .pipeReader _ => true
  | .pipeWriter _ => true
  | .stdIn => false
  | .stdOut => false
  | .stdErr => false

/-- A concrete shell state with empty history, used by the concrete
instances below. -/
def shellA : Shell :=
  { pwd := str "/home"
    vars := []
    args := []
    lastExitStatus := 5
    history := []
    historyFileOpen := true
    historyFileWrites := []
    shouldEcho := false
    cursorPosition := 0
    insertMode := false }

/-- A concrete shell state with the three-entry history of the spec
example. -/
def shellHist : Shell :=
  { shellA with history := [str "ls", str "echo hi", str "pwd"] }

/-- An empty filesystem. -/
def fsEmpty : FS := ⟨[]⟩

/-- A filesystem with a directory `d`, a file-without-text-line `f`, and a
binary `/bin/prog`. -/
def fsDemo : FS :=
  ⟨[(str "/bin/prog", .file none), (str "d", .dir), (str "f", .file none)]⟩

/-! ### Helper lemmas about the descriptor table and the resolver -/

theorem tlookup_tinsert_self (t : Table) (k : Int) (v : OpenedFd) :
    tlookup (tinsert t k v) k = some v := by
  simp [tlookup, tinsert, List.find?]

theorem find?_filter_key {k j : Int} (h : j ≠ k) (t : Table) :
    (t.filter (fun e => !(e.1 == k))).find? (fun e => e.1 == j)
      = t.find? (fun e => e.1 == j) := by
  induction t with
  | nil => rfl
  | cons a rest ih =>
    by_cases hak : a.1 = k
    · have hkj : (k == j) = false := beq_eq_false_iff_ne.mpr fun e => h e.symm
      simp [List.filter_cons, List.find?_cons, hak, hkj, ih]
    · have h1 : (a.1 == k) = false := beq_eq_false_iff_ne.mpr hak
      by_cases haj : a.1 = j
      · simp [List.filter_cons, List.find?_cons, h1, haj, h]
      · have h2 : (a.1 == j) = false := beq_eq_false_iff_ne.mpr haj
        simp [List.filter_cons, List.find?_cons, h1, h2, ih]

theorem tlookup_tinsert_ne (t : Table) {k j : Int} (v : OpenedFd) (h : j ≠ k) :
    tlookup (tinsert t k v) j = tlookup t j := by
  have hkj : (k == j) = false := beq_eq_false_iff_ne.mpr fun e => h e.symm
  simp only [tlookup, tinsert, tremove, List.find?_cons, hkj]
  rw [find?_filter_key h]

theorem tlookup_tremove_self (t : Table) (k : Int) :
    tlookup (tremove t k) k = none := by
  simp only [tlookup, Option.map_eq_none', List.find?_eq_none]
  intro e he
  have := List.of_mem_filter he
  simpa using this

theorem tlookup_tremove_of_none (t : Table) (k j : Int) (h : tlookup t j = none) :
    tlookup (tremove t k) j = none := by
  simp only [tlookup, Option.map_eq_none', List.find?_eq_none] at h ⊢
  intro e he
  exact h e (List.mem_of_mem_filter he)

theorem go_append_ok (fs : FS) {xs : List Redirect} {st st1 : Resolution}
    (ys : List Redirect) (h : go fs xs st = (st1, .ok ())) :
    go fs (xs ++ ys) st = go fs ys st1 := by
  induction xs generalizing st with
  | nil =>
    simp only [go, Prod.mk.injEq] at h
    simp [h.1]
  | cons r rs ih =>
    rw [List.cons_append]
    rw [go] at h ⊢
    cases hp : processRedirect fs st r with
    | mk st2 res =>
      rw [hp] at h
      cases res with
      | ok u =>
        dsimp only at h ⊢
        exact ih h
      | error e =>
        dsimp only at h
        simp at h

theorem go_cons_error (fs : FS) (r : Redirect) (rs : List Redirect)
    {st st2 : Resolution} {e : IOError}
    (hp : processRedirect fs st r = (st2, .error e)) :
    go fs (r :: rs) st = (st2, .error e) := by
  rw [go, hp]

theorem go_cons_ok (fs : FS) (r : Redirect) (rs : List Redirect)
    {st st2 : Resolution} (hp : processRedirect fs st r = (st2, .ok ())) :
    go fs (r :: rs) st = go fs rs st2 := by
  rw [go, hp]

theorem go_preserves_absent (fs : FS) (fd : Int) :
    ∀ (mid : List Redirect) (st st1 : Resolution),
      tlookup st.table fd = none →
      (∀ r ∈ mid, touchesFd fd r = false) →
      go fs mid st = (st1, .ok ()) →
      tlookup st1.table fd = none := by
  intro mid
  induction mid with
  | nil =>
    intro st st1 habs _ hgo
    simp only [go, Prod.mk.injEq] at hgo
    rw [← hgo.1]
    exact habs
  | cons r rs ih =>
    intro st st1 habs htouch hgo
    have hr : touchesFd fd r = false := htouch r (List.mem_cons_self r rs)
    have hrs : ∀ x ∈ rs, touchesFd fd x = false :=
      fun x hx => htouch x (List.mem_cons_of_mem r hx)
    rw [go] at hgo
    cases hp : processRedirect fs st r with
    | mk st2 res =>
      rw [hp] at hgo
      cases res with
      | error e => simp at hgo
      | ok u =>
        refine ih st2 st1 ?_ hrs hgo
        clear hgo
        cases r with
        | read f p =>
          have hf : f ≠ fd := by simpa [touchesFd, beq_eq_false_iff_ne] using hr
          rw [processRedirect] at hp
          cases hl : fs.lookup p with
          | some kind =>
            rw [hl] at hp
            simp only [Prod.mk.injEq] at hp
            rw [← hp.1]
            rw [tlookup_tinsert_ne _ _ (fun e => hf e.symm)]
            exact habs
          | none => rw [hl] at hp; simp at hp
        | write f p =>
          have hf : f ≠ fd := by simpa [touchesFd, beq_eq_false_iff_ne] using hr
          rw [processRedirect] at hp
          cases hl : fs.lookup p with
          | some kind =>
            cases kind with
            | dir => rw [hl] at hp; simp at hp
            | file fl =>
              rw [hl] at hp
              simp only [Prod.mk.injEq] at hp
              rw [← hp.1]
              rw [tlookup_tinsert_ne _ _ (fun e => hf e.symm)]
              exact habs
          | none =>
            rw [hl] at hp
            simp only [Prod.mk.injEq] at hp
            rw [← hp.1]
            rw [tlookup_tinsert_ne _ _ (fun e => hf e.symm)]
            exact habs
        | append f p =>
          have hf : f ≠ fd := by simpa [touchesFd, beq_eq_false_iff_ne] using hr
          rw [processRedirect] at hp
          cases hl : fs.lookup p with
          | some kind =>
            cases kind with
            | dir => rw [hl] at hp; simp at hp
            | file fl =>
              rw [hl] at hp
              simp only [Prod.mk.injEq] at hp
              rw [← hp.1]
              rw [tlookup_tinsert_ne _ _ (fun e => hf e.symm)]
              exact habs
          | none =>
            rw [hl] at hp
            simp only [Prod.mk.injEq] at hp
            rw [← hp.1]
            rw [tlookup_tinsert_ne _ _ (fun e => hf e.symm)]
            exact habs
        | readWrite f p =>
          have hf : f ≠ fd := by simpa [touchesFd, beq_eq_false_iff_ne] using hr
          rw [processRedirect] at hp
          cases hl : fs.lookup p with
          | some kind =>
            cases kind with
            | dir => rw [hl] at hp; simp at hp
            | file fl =>
              rw [hl] at hp
              simp only [Prod.mk.injEq] at hp
              rw [← hp.1]
              rw [tlookup_tinsert_ne _ _ (fun e => hf e.symm)]
              exact habs
          | none =>
            rw [hl] at hp
            simp only [Prod.mk.injEq] at hp
            rw [← hp.1]
            rw [tlookup_tinsert_ne _ _ (fun e => hf e.symm)]
            exact habs
        | duplicate fdDest fdSource =>
          have hf : fdDest ≠ fd := by simpa [touchesFd, beq_eq_false_iff_ne] using hr
          rw [processRedirect] at hp
          cases hl : tlookup st.table fdSource with
          | some target =>
            rw [hl] at hp
            simp only [Prod.mk.injEq] at hp
            rw [← hp.1]
            rw [tlookup_tinsert_ne _ _ (fun e => hf e.symm)]
            exact habs
          | none => rw [hl] at hp; simp at hp
        | close f =>
          rw [processRedirect] at hp
          simp only [Prod.mk.injEq] at hp
          rw [← hp.1]
          exact tlookup_tremove_of_none _ _ _ habs
        | pipeIn p =>
          rw [processRedirect] at hp
          simp only [Prod.mk.injEq] at hp
          rw [← hp.1]
          exact habs
        | pipeOut p =>
          rw [processRedirect] at hp
          simp only [Prod.mk.injEq] at hp
          rw [← hp.1]
          exact habs

theorem go_write_dir_fails (fs : FS) (fd : Int) (p : Str) (rest : List Redirect)
    (hp : fs.lookup p = some .dir) :
    ∀ (pre : List Redirect) (st : Resolution),
      ∃ st1 e, go fs (pre ++ .write fd p :: rest) st = (st1, .error e) := by
  intro pre
  induction pre with
  | nil =>
    intro st
    refine ⟨st, .isADirectory, ?_⟩
    rw [List.nil_append]
    exact go_cons_error fs _ rest (by rw [processRedirect, hp])
  | cons r rs ih =>
    intro st
    rw [List.cons_append, go]
    cases hq : processRedirect fs st r with
    | mk st2 res =>
      cases res with
      | ok u =>
        obtain ⟨st1, e, hgo⟩ := ih st2
        refine ⟨st1, e, ?_⟩
        dsimp only
        exact hgo
      | error e => exact ⟨st2, e, rfl⟩

theorem go_append_ok_inv (fs : FS) (xs : List Redirect) {ys : List Redirect}
    {st st1 : Resolution} (h : go fs (xs ++ ys) st = (st1, .ok ())) :
    ∃ stm, go fs xs st = (stm, .ok ()) ∧ go fs ys stm = (st1, .ok ()) := by
  induction xs generalizing st with
  | nil => exact ⟨st, rfl, h⟩
  | cons r rs ih =>
    rw [List.cons_append, go] at h
    rw [go]
    cases hp : processRedirect fs st r with
    | mk st2 res =>
      rw [hp] at h
      cases res with
      | ok u =>
        dsimp only at h ⊢
        exact ih h
      | error e =>
        dsimp only at h
        simp at h

theorem execute_command_resolver_error (fs : FS) (childExit : Int) (pathVar shellVar : Str)
    (sh : Shell) (command : Str) (args : List Str) (env : List (Str × Str)) (background : Bool)
    (redirects : List Redirect) {e : IOError}
    (h : (preprocess_redirects fs redirects).2 = .error e) :
    execute_command fs childExit pathVar shellVar sh command args env background redirects
      = .done sh EXIT_FAILURE false := by
  unfold execute_command
  dsimp only [outputDeviceNew]
  rw [h]

theorem allDuplicates_rebuild (t : Table) :
    allDuplicates (rebuildRedirects t) = true := by
  induction t with
  | nil => rfl
  | cons a rest ih => simpa [rebuildRedirects, allDuplicates] using ih

theorem historyAppendLine_getLast (sh : Shell) (l : Str) :
    (historyAppendLine sh l).history.getLast? = some l := by
  rw [historyAppendLine]
  split
  · next hc => exact hc
  · simp [List.getLast?_concat]

theorem historyAppendLine_of_getLast {sh : Shell} {l : Str}
    (h : sh.history.getLast? = some l) : historyAppendLine sh l = sh := by
  rw [historyAppendLine, if_pos h]

theorem historyAppendLine_history_of_ne {sh : Shell} {l : Str}
    (h : ¬ sh.history.getLast? = some l) :
    (historyAppendLine sh l).history = sh.history ++ [l] := by
  rw [historyAppendLine, if_neg h]

/-! ### Claims -/

/-- Claim C2, counterexample: the claim asserts that a `Close(fd)` followed
by another `Close(fd)` fails with `BadFileDescriptor`, but
`preprocess_redirects` resolves `[Close 5, Close 5]` successfully: removing
an untracked key from the descriptor map is a silent no-op, with no
validity probe. -/
theorem C2_counterexample :
    (preprocess_redirects fsEmpty [.close 5, .close 5]).2 = .ok () := rfl

/-- Claim C2 (amended): a `Close(fd)` followed later by a `Duplicate` whose
source is `fd` makes resolution fail with `BadFileDescriptor`, provided the
entries processed up to the duplicate succeed and none of the entries
between the close and the duplicate re-establishes `fd`; a second
`Close(fd)` by itself, in contrast, is accepted silently. -/
theorem C2_amended (fs : FS) (pre mid post : List Redirect) (dst fd : Int) (st1 : Resolution)
    (hmid : ∀ r ∈ mid, touchesFd fd r = false)
    (hok : go fs (pre ++ (.close fd :: mid))
        ⟨pipePhase ((pre ++ (.close fd :: mid)) ++ (.duplicate dst fd :: post)) stdSeed, 0⟩
        = (st1, .ok ())) :
    (preprocess_redirects fs ((pre ++ (.close fd :: mid)) ++ (.duplicate dst fd :: post))).2
      = .error .badFileDescriptor := by
  obtain ⟨stm, hpre, hcm⟩ := go_append_ok_inv fs pre hok
  have hclose : go fs (.close fd :: mid) stm
      = go fs mid ⟨tremove stm.table fd, stm.next⟩ :=
    go_cons_ok fs _ mid rfl
  rw [hclose] at hcm
  have habsent : tlookup st1.table fd = none :=
    go_preserves_absent fs fd mid ⟨tremove stm.table fd, stm.next⟩ st1
      (tlookup_tremove_self stm.table fd) hmid hcm
  have hdup : processRedirect fs st1 (.duplicate dst fd) = (st1, .error .badFileDescriptor) := by
    rw [processRedirect, habsent]
  have hall : go fs ((pre ++ (.close fd :: mid)) ++ (.duplicate dst fd :: post))
      ⟨pipePhase ((pre ++ (.close fd :: mid)) ++ (.duplicate dst fd :: post)) stdSeed, 0⟩
      = (st1, .error .badFileDescriptor) := by
    rw [go_append_ok fs (.duplicate dst fd :: post) hok]
    exact go_cons_error fs _ post hdup
  rw [preprocess_redirects, hall]

/-- Claim C2 witness: applying the amended claim to the concrete list
`[Close 5, Duplicate 3 5]` over the empty filesystem. -/
theorem C2_amended_witness :
    (preprocess_redirects fsEmpty [.close 5, .duplicate 3 5]).2
      = .error .badFileDescriptor :=
  C2_amended fsEmpty [] [] [] 3 5 ⟨stdSeed, 0⟩
    (fun r hr => absurd hr (List.not_mem_nil r)) rfl

/-- Claim C3 (confirmed): when a `Duplicate(dst, src)` follows earlier
redirects that left `src` mapped to an opened file or pipe endpoint,
successful resolution maps `dst` to that same entry — the same open
description identifier — rather than a fresh open or a raw-descriptor
duplicate, and `src` keeps it too. -/
theorem C3 (fs : FS) (pre : List Redirect) (dst src : Int) (st0 st : Resolution)
    (target : OpenedFd)
    (hok : go fs pre st0 = (st, .ok ()))
    (hsrc : tlookup st.table src = some target)
    (hfp : isFileOrPipe target = true) :
    go fs (pre ++ [.duplicate dst src]) st0
      = (⟨tinsert st.table dst target, st.next⟩, .ok ())
    ∧ tlookup (tinsert st.table dst target) dst = some target
    ∧ tlookup (tinsert st.table dst target) src = some target := by
  have hstep : processRedirect fs st (.duplicate dst src)
      = (⟨tinsert st.table dst target, st.next⟩, .ok ()) := by
    rw [processRedirect, hsrc]
  refine ⟨?_, tlookup_tinsert_self st.table dst target, ?_⟩
  · rw [go_append_ok fs [.duplicate dst src] hok]
    rw [go_cons_ok fs _ [] hstep]
    rfl
  · by_cases hds : src = dst
    · rw [hds]
      exact tlookup_tinsert_self st.table dst target
    · rw [tlookup_tinsert_ne st.table target hds]
      exact hsrc

/-- Claim C3 witness: a `Write(1, "f")` followed by `Duplicate(2, 1)` gives
descriptor 2 the same open description (id 0) as descriptor 1. -/
theorem C3_witness :
    go fsDemo [.write 1 (str "f"), .duplicate 2 1] ⟨stdSeed, 0⟩
      = (⟨tinsert (tinsert stdSeed 1 (.file 0 true)) 2 (.file 0 true), 1⟩, .ok ())
    ∧ tlookup (tinsert (tinsert stdSeed 1 (.file 0 true)) 2 (.file 0 true)) 2
        = some (.file 0 true)
    ∧ tlookup (tinsert (tinsert stdSeed 1 (.file 0 true)) 2 (.file 0 true)) 1
        = some (.file 0 true) :=
  C3 fsDemo [.write 1 (str "f")] 2 1 ⟨stdSeed, 0⟩
    ⟨tinsert stdSeed 1 (.file 0 true), 1⟩ (.file 0 true) rfl rfl rfl

/-- Claim C4 (confirmed): a redirect list containing a `Write` whose path
names an existing directory always fails resolution, the dispatcher returns
`EXIT_FAILURE = 1` with the shell state untouched and without ever calling
`spawn` (so the read-eval loop simply receives a failure status and goes
on), and when the entries before that `Write` resolve successfully the
reported error is precisely `IsADirectory`. -/
theorem C4 (fs : FS) (childExit : Int) (pathVar shellVar : Str) (sh : Shell)
    (command : Str) (args : List Str) (env : List (Str × Str)) (background : Bool)
    (pre rest : List Redirect) (fd : Int) (p : Str)
    (hdir : fs.lookup p = some .dir) :
    (∃ e, (preprocess_redirects fs (pre ++ .write fd p :: rest)).2 = .error e)
    ∧ execute_command fs childExit pathVar shellVar sh command args env background
        (pre ++ .write fd p :: rest) = .done sh EXIT_FAILURE false
    ∧ (∀ stm, go fs pre ⟨pipePhase (pre ++ .write fd p :: rest) stdSeed, 0⟩ = (stm, .ok ()) →
        (preprocess_redirects fs (pre ++ .write fd p :: rest)).2 = .error .isADirectory) := by
  obtain ⟨st1, e, hgo⟩ :=
    go_write_dir_fails fs fd p rest hdir pre ⟨pipePhase (pre ++ .write fd p :: rest) stdSeed, 0⟩
  have herr : (preprocess_redirects fs (pre ++ .write fd p :: rest)).2 = .error e := by
    rw [preprocess_redirects, hgo]
  refine ⟨⟨e, herr⟩, ?_, ?_⟩
  · exact execute_command_resolver_error fs childExit pathVar shellVar sh command args env
      background (pre ++ .write fd p :: rest) herr
  · intro stm hpre
    have hstep : processRedirect fs stm (.write fd p) = (stm, .error .isADirectory) := by
      rw [processRedirect, hdir]
    have : go fs (pre ++ .write fd p :: rest)
        ⟨pipePhase (pre ++ .write fd p :: rest) stdSeed, 0⟩
        = (stm, .error .isADirectory) := by
      rw [go_append_ok fs (.write fd p :: rest) hpre]
      exact go_cons_error fs _ rest hstep
    rw [preprocess_redirects, this]

/-- Claim C4 witness: a `Write(1, "d")` where `d` is an existing directory
is rejected with `IsADirectory` and the command is not spawned. -/
theorem C4_witness :
    (∃ e, (preprocess_redirects fsDemo [.write 1 (str "d")]).2 = .error e)
    ∧ execute_command fsDemo 7 (str "/bin") (str "/bin/sh") shellA (str "anything") [] [] false
        [.write 1 (str "d")] = .done shellA EXIT_FAILURE false
    ∧ (∀ stm, go fsDemo [] ⟨pipePhase [.write 1 (str "d")] stdSeed, 0⟩ = (stm, .ok ()) →
        (preprocess_redirects fsDemo [.write 1 (str "d")]).2 = .error .isADirectory) :=
  C4 fsDemo 7 (str "/bin") (str "/bin/sh") shellA (str "anything") [] [] false
    [] [] 1 (str "d") rfl

/-- Claim C1, counterexample: dispatching the unresolvable command `nosuch`
over an empty filesystem returns exit status `EXIT_FAILURE = 1` (also the
value stored in `last_exit_status`), not `EXIT_CMD_NOT_FOUND = 127`: the
`Err(reason)` arm of `execute_command` produces `Ok(EXIT_FAILURE)`, and the
constant `EXIT_CMD_NOT_FOUND` is never used there. -/
theorem C1_counterexample :
    execute_command fsEmpty 7 (str "/bin") (str "/bin/sh") shellA (str "nosuch") [] [] false []
      = .done { shellA with lastExitStatus := EXIT_FAILURE } EXIT_FAILURE false
    ∧ EXIT_FAILURE ≠ EXIT_CMD_NOT_FOUND :=
  ⟨rfl, by decide⟩

/-- Claim C1 (amended): for every command name that is not a builtin and
for which executable resolution fails (absolute, relative and `PATH` search
alike), `execute_command` manufactures the generic failure exit status
`EXIT_FAILURE = 1`, stores it in `last_exit_status` and returns it, never
calling `spawn`. -/
theorem C1_amended (fs : FS) (childExit : Int) (pathVar shellVar : Str) (sh : Shell)
    (command : Str) (args : List Str) (env : List (Str × Str)) (background : Bool)
    (redirects : List Redirect) (msg : Str)
    (hb : builtinNames.contains command = false)
    (hpp : (preprocess_redirects fs redirects).2 = .ok ())
    (hres : resolveExternal fs sh.pwd pathVar command = .error msg) :
    execute_command fs childExit pathVar shellVar sh command args env background redirects
      = .done { sh with lastExitStatus := EXIT_FAILURE } EXIT_FAILURE false := by
  unfold execute_command
  dsimp only [outputDeviceNew]
  rw [hpp, hb]
  rw [hres]
  simp

/-- Claim C1 witness: applying the amended claim to the command `nosuch`
with `PATH=/bin` over the empty filesystem. -/
theorem C1_amended_witness :
    execute_command fsEmpty 7 (str "/bin") (str "/bin/sh") shellHist (str "nosuch") [] [] false []
      = .done { shellHist with lastExitStatus := EXIT_FAILURE } EXIT_FAILURE false :=
  C1_amended fsEmpty 7 (str "/bin") (str "/bin/sh") shellHist (str "nosuch") [] [] false []
    (str "nosuch: command not found") rfl rfl rfl

/-- Claim C8 (confirmed): for a native `spawn` whose redirect list passes
the all-`Duplicate` check, a background call returns the synthetic success
status `EXIT_SUCCESS = 0` without waiting on the child, while the same call
in the foreground waits and returns exactly the child's exit code. -/
theorem C8 (childExit : Int) (path : Str) (args : List Str) (env : List (Str × Str))
    (redirects : List Redirect) (hdup : allDuplicates redirects = true) :
    spawn childExit path args env true redirects = some ⟨EXIT_SUCCESS, false⟩
    ∧ spawn childExit path args env false redirects = some ⟨childExit, true⟩ := by
  constructor
  · simp [spawn, hdup]
  · simp [spawn, hdup]

/-- Claim C8 witness: spawning with one `Duplicate` redirect and a child
that exits with code 7. -/
theorem C8_witness :
    spawn 7 (str "/bin/prog") [] [] true [.duplicate 0 0] = some ⟨EXIT_SUCCESS, false⟩
    ∧ spawn 7 (str "/bin/prog") [] [] false [.duplicate 0 0] = some ⟨7, true⟩ :=
  C8 7 (str "/bin/prog") [] [] [.duplicate 0 0] rfl

/-- Claim C9, counterexample: after dispatching a background spawn of
`/bin/prog`, the resulting shell state equals the starting state with only
`last_exit_status` changed (to the synthetic success 0) — every other field
is untouched, and the `Shell` structure mirrored from the source has no
`last_job_pid` field at all; `spawn` itself returns only an exit status,
not a pid, so no pid is recorded anywhere. -/
theorem C9_counterexample :
    execute_command fsDemo 7 (str "/bin") (str "/bin/sh") shellHist (str "/bin/prog") [] [] true []
      = .done { shellHist with lastExitStatus := EXIT_SUCCESS } EXIT_SUCCESS true
    ∧ ({ shellHist with lastExitStatus := EXIT_SUCCESS } : Shell).pwd = shellHist.pwd
    ∧ ({ shellHist with lastExitStatus := EXIT_SUCCESS } : Shell).vars = shellHist.vars
    ∧ ({ shellHist with lastExitStatus := EXIT_SUCCESS } : Shell).args = shellHist.args
    ∧ ({ shellHist with lastExitStatus := EXIT_SUCCESS } : Shell).history = shellHist.history
    ∧ ({ shellHist with lastExitStatus := EXIT_SUCCESS } : Shell).historyFileOpen
        = shellHist.historyFileOpen
    ∧ ({ shellHist with lastExitStatus := EXIT_SUCCESS } : Shell).historyFileWrites
        = shellHist.historyFileWrites
    ∧ ({ shellHist with lastExitStatus := EXIT_SUCCESS } : Shell).cursorPosition
        = shellHist.cursorPosition
    ∧ ({ shellHist with lastExitStatus := EXIT_SUCCESS } : Shell).insertMode
        = shellHist.insertMode :=
  ⟨rfl, rfl, rfl, rfl, rfl, rfl, rfl, rfl, rfl⟩

/-- Claim C9 (amended): after every dispatch of a background spawn the
shell state is the old state with only `last_exit_status` set (to the
synthetic success value `EXIT_SUCCESS`, since the background `spawn`
returns no more than that placeholder status): the code tracks no
background pid — `Shell` has no `last_job_pid` field and `spawn` returns a
bare exit status rather than a `{exit_status, pid}` pair. -/
theorem C9_amended (fs : FS) (childExit : Int) (pathVar shellVar : Str) (sh : Shell)
    (command : Str) (args : List Str) (env : List (Str × Str)) (redirects : List Redirect)
    (fullPath : Str)
    (hpp : (preprocess_redirects fs redirects).2 = .ok ())
    (hb : builtinNames.contains command = false)
    (hres : resolveExternal fs sh.pwd pathVar command = .ok fullPath) :
    execute_command fs childExit pathVar shellVar sh command args env true redirects
      = .done { sh with lastExitStatus := EXIT_SUCCESS } EXIT_SUCCESS true := by
  unfold execute_command
  dsimp only [outputDeviceNew]
  rw [hpp, hb]
  rw [hres]
  cases hl : fs.lookup fullPath with
  | none => simp [spawn, allDuplicates_rebuild, hl]
  | some k =>
    cases k with
    | dir => simp [spawn, allDuplicates_rebuild, hl]
    | file fl =>
      cases fl with
      | none => simp [spawn, allDuplicates_rebuild, hl]
      | some line => simp [spawn, allDuplicates_rebuild, hl]

/-- Claim C9 witness: applying the amended claim to a background spawn of
the binary `/bin/prog`. -/
theorem C9_amended_witness :
    execute_command fsDemo 7 (str "/bin") (str "/bin/sh") shellA (str "/bin/prog") [] [] true []
      = .done { shellA with lastExitStatus := EXIT_SUCCESS } EXIT_SUCCESS true :=
  C9_amended fsDemo 7 (str "/bin") (str "/bin/sh") shellA (str "/bin/prog") [] [] []
    (str "/bin/prog") rfl rfl rfl

/-- Claim C5 (confirmed): with history exactly `["ls", "echo hi", "pwd"]`,
`history_expansion` maps `!!` to `pwd`, `!1` to `ls`, `!-2` to `echo hi`,
`!ec` to `echo hi` (prefix search newest first), and maps `!zz` to
`EventNotFound("!zz")`, on which the interpreter loop only prints the
event-not-found message and executes nothing. -/
theorem C5 :
    (history_expansion shellHist (str "!!")).2 = .expanded (str "pwd")
    ∧ (history_expansion shellHist (str "!1")).2 = .expanded (str "ls")
    ∧ (history_expansion shellHist (str "!-2")).2 = .expanded (str "echo hi")
    ∧ (history_expansion shellHist (str "!ec")).2 = .expanded (str "echo hi")
    ∧ (history_expansion shellHist (str "!zz")).2 = .eventNotFound (str "!zz")
    ∧ runLoopStep shellHist (str "!zz")
        = (shellHist, .printEventNotFound (str "!zz")) :=
  ⟨rfl, rfl, rfl, rfl, rfl, rfl⟩

/-- Claim C6 (confirmed): whenever `history_expansion` resolves to
`EventNotFound`, the shell state is returned untouched — in particular
nothing is appended to the in-memory history log and nothing is written to
the history file by that call. -/
theorem C6 (sh : Shell) (input tok : Str)
    (h : (history_expansion sh input).2 = .eventNotFound tok) :
    (history_expansion sh input).1 = sh := by
  unfold history_expansion at h ⊢
  cases hn : numberLoop sh.history (numCaptures input) (bangBangPass sh.history input) with
  | error t1 => rfl
  | ok after1 =>
    rw [hn] at h
    dsimp only at h ⊢
    cases hs : stringLoop sh.history (strCaptures after1) after1 with
    | error t2 => rfl
    | ok after2 =>
      rw [hs] at h
      dsimp only at h
      split at h
      · simp at h
      · simp at h

/-- Claim C6 witness: `!zz` over an empty history resolves to
`EventNotFound` and leaves the shell state unchanged. -/
theorem C6_witness :
    (history_expansion shellA (str "!zz")).2 = .eventNotFound (str "!zz")
    ∧ (history_expansion shellA (str "!zz")).1 = shellA :=
  ⟨rfl, C6 shellA (str "!zz") (str "!zz") rfl⟩

/-- Claim C7 (confirmed): appending the same non-empty line twice in a row
creates no second entry (the second call leaves the whole state unchanged,
and the first call does append the line whenever it is not already the most
recent entry), while appending it again after a different line in between
appends it once more; this holds for every line and every starting
history. -/
theorem C7 (sh : Shell) (l m : Str) (hl : l ≠ []) :
    historyAppendLine (historyAppendLine sh l) l = historyAppendLine sh l
    ∧ (sh.history.getLast? ≠ some l →
        (historyAppendLine sh l).history = sh.history ++ [l])
    ∧ (m ≠ l →
        (historyAppendLine (historyAppendLine (historyAppendLine sh l) m) l).history
          = (historyAppendLine (historyAppendLine sh l) m).history ++ [l]) := by
  refine ⟨historyAppendLine_of_getLast (historyAppendLine_getLast sh l), ?_, ?_⟩
  · intro h
    exact historyAppendLine_history_of_ne h
  · intro hml
    apply historyAppendLine_history_of_ne
    rw [historyAppendLine_getLast]
    intro hcontra
    exact hml (Option.some.inj hcontra)

/-- Claim C7 witness: applying the claim to the line `echo a` with the line
`ls` in between, starting from the empty history. -/
theorem C7_witness :
    historyAppendLine (historyAppendLine shellA (str "echo a")) (str "echo a")
      = historyAppendLine shellA (str "echo a")
    ∧ (shellA.history.getLast? ≠ some (str "echo a") →
        (historyAppendLine shellA (str "echo a")).history
          = shellA.history ++ [str "echo a"])
    ∧ (str "ls" ≠ str "echo a" →
        (historyAppendLine (historyAppendLine (historyAppendLine shellA (str "echo a"))
            (str "ls")) (str "echo a")).history
          = (historyAppendLine (historyAppendLine shellA (str "echo a"))
              (str "ls")).history ++ [str "echo a"]) :=
  C7 shellA (str "echo a") (str "ls") (by decide)

/-- Claim C10, counterexample: the claim quantifies over every input line
containing the token `!!`; the line `!1 !!` contains `!!`, yet with an
empty history `history_expansion` yields `EventNotFound("!1")` (the `!1`
reference fails first), not `Unchanged`. -/
theorem C10_counterexample :
    shellA.history = []
    ∧ str "!!" <:+: str "!1 !!"
    ∧ (history_expansion shellA (str "!1 !!")).2 = .eventNotFound (str "!1")
    ∧ (history_expansion shellA (str "!1 !!")).2 ≠ .unchanged :=
  ⟨rfl, by decide, rfl, by decide⟩

/-- Claim C10 (amended): when the history log is empty, an input line made
of code points below 0x100 (the range the byte-oriented line editor
produces, on which the capture model is exact) containing the token `!!` —
and no other bang reference, i.e. no `NUMBER_RE` or `STRING_RE` capture —
is returned as `Unchanged`: the `!!` substitution is skipped so the literal
text stays in place, the line is appended to history verbatim, and the
interpreter loop hands exactly this input to execution. -/
theorem C10_amended (sh : Shell) (input : Str)
    (hh : sh.history = [])
    (hlatin : ∀ c ∈ input, c.toNat < 0x100)
    (hinf : str "!!" <:+: input)
    (hnum : numCaptures input = [])
    (hstr : strCaptures input = []) :
    history_expansion sh input = (historyAppendLine sh input, .unchanged)
    ∧ (historyAppendLine sh input).history = [input]
    ∧ runLoopStep sh input = (historyAppendLine sh input, .executeInput input) := by
  have hbb : bangBangPass sh.history input = input := by
    rw [bangBangPass, hh]
    rfl
  have h1 : history_expansion sh input = (historyAppendLine sh input, .unchanged) := by
    unfold history_expansion
    rw [hnum, hbb]
    dsimp only [numberLoop]
    rw [hstr]
    dsimp only [stringLoop]
    simp
  refine ⟨h1, ?_, ?_⟩
  · have hne : ¬ sh.history.getLast? = some input := by
      rw [hh]
      simp
    rw [historyAppendLine_history_of_ne hne, hh, List.nil_append]
  · rw [runLoopStep, h1]

/-- Claim C10 witness: the line `!!` itself, with an empty history, is left
unchanged, appended verbatim and handed to execution. -/
theorem C10_amended_witness :
    history_expansion shellA (str "!!") = (historyAppendLine shellA (str "!!"), .unchanged)
    ∧ (historyAppendLine shellA (str "!!")).history = [str "!!"]
    ∧ runLoopStep shellA (str "!!")
        = (historyAppendLine shellA (str "!!"), .executeInput (str "!!")) :=
  C10_amended shellA (str "!!") rfl (by decide) (by decide) rfl rfl

end Wash
